import Mathlib

/-!
Verification of the SME-DT-ERP warehouse digital-twin core (src/core.py).

The Python source is shallowly embedded: machine floats become rationals,
dictionaries become association lists, the bounded `deque` event buffer
becomes a list with explicit eviction, and the fallible `get_summary`
(which can raise `ZeroDivisionError`) returns an `Except`.  The SimPy
scheduler and `simpy.Resource` are third-party code not contained in the
repository; those two components are modelled from the specification text
(see the doc comments marked "Modelled from the spec").
-/

set_option maxHeartbeats 1000000

namespace SmeDtErp

/-- Event kinds, from `EventType` in src/core.py. -/
inductive EventType where
  | ORDER_CREATED
  | ORDER_STATUS_CHANGED
  | INVENTORY_UPDATED
  | WORKER_ASSIGNED
  | WORKER_RELEASED
  | RESOURCE_ALLOCATED
  | RESOURCE_RELEASED
  | SIMULATION_TICK
  | SYNC_REQUEST
  | CALIBRATION_TRIGGER
  deriving DecidableEq, Repr

/-- A value stored in an event's open key-value payload (`data` dict). -/
inductive PayloadVal where
  | s (v : String)
  | i (v : Int)
  | q (v : ℚ)
  deriving DecidableEq, Repr

/-- `WarehouseEvent` from src/core.py.  The numeric part of the formatted
event id string (`"DT-%06d"` / `"EV-%d"`) is kept as a natural number;
timestamps are rationals (seconds for wall-clock timestamps). -/
structure WarehouseEvent where
  event_id : Nat
  event_type : EventType
  timestamp : ℚ
  data : List (String × PayloadVal)
  source : String := "simulation"
  processed : Bool := false
  deriving DecidableEq, Repr

/-- Appending to a `collections.deque` with `maxlen = cap`: insert at the
tail and, if the size now exceeds the capacity, drop the head. -/
def dequeAppend (cap : Nat) (buf : List WarehouseEvent) (e : WarehouseEvent) :
    List WarehouseEvent :=
  let b := buf ++ [e]
  if cap < b.length then b.tail else b

/-- `WarehouseDigitalTwin._record_event`: the event id is taken from the
current length of the event buffer (`len(self.event_buffer)`). -/
def recordEvent (cap : Nat) (now : ℚ) (buf : List WarehouseEvent)
    (etype : EventType) (data : List (String × PayloadVal)) : List WarehouseEvent :=
  dequeAppend cap buf
    { event_id := buf.length
      event_type := etype
      timestamp := now
      data := data
      source := "simulation"
      processed := false }

/-- Run `n` consecutive `_record_event` calls and also collect the ids the
calls assigned, in call order. -/
def recordEventsIds (cap : Nat) : Nat → List WarehouseEvent → List WarehouseEvent × List Nat
  | 0, buf => (buf, [])
  | n + 1, buf =>
    let assigned := buf.length
    let buf' := recordEvent cap 0 buf .SIMULATION_TICK []
    let r := recordEventsIds cap n buf'
    (r.1, assigned :: r.2)

/-- `OrderStatus` from src/core.py. -/
inductive OrderStatus where
  | RECEIVED
  | PICKING
  | PICKED
  | PACKING
  | PACKED
  | SHIPPING
  | COMPLETED
  | CANCELLED
  deriving DecidableEq, Repr

/-- `OrderLine` from src/core.py. -/
structure OrderLine where
  sku : String
  quantity : Int
  picked_quantity : Int := 0
  location : Option String := none
  deriving DecidableEq, Repr

/-- `Order` from src/core.py.  Wall-clock `created_at` and `completed_at`
are irrelevant to the verified claims and omitted; the four virtual-time
phase stamps are kept. -/
structure Order where
  order_id : String
  customer_id : String
  lines : List OrderLine
  status : OrderStatus := .RECEIVED
  priority : Int := 1
  pick_start_time : Option ℚ := none
  pick_end_time : Option ℚ := none
  pack_start_time : Option ℚ := none
  pack_end_time : Option ℚ := none
  deriving DecidableEq, Repr

/-- `Order.total_items`. -/
def Order.total_items (o : Order) : Int :=
  (o.lines.map (fun l => l.quantity)).sum

/-- `Order.picked_items`. -/
def Order.picked_items (o : Order) : Int :=
  (o.lines.map (fun l => l.picked_quantity)).sum

/-- `Order.is_fully_picked`. -/
def Order.is_fully_picked (o : Order) : Bool :=
  o.lines.all (fun l => l.quantity ≤ l.picked_quantity)

/-- `InventoryItem` from src/core.py (wall-clock `last_updated` omitted). -/
structure InventoryItem where
  sku : String
  name : String := ""
  quantity : Int
  location : String := ""
  min_stock : Int := 10
  max_stock : Int := 100
  unit_cost : ℚ := 0
  deriving DecidableEq, Repr

/-- `SimulationConfig` from src/core.py, floats as rationals. -/
structure SimulationConfig where
  simulation_time : ℚ := 480
  time_unit : String := "minutes"
  random_seed : Nat := 42
  num_storage_locations : Nat := 100
  num_workers : Nat := 5
  num_forklifts : Nat := 2
  pick_time_mean : ℚ := 2
  pick_time_std : ℚ := 1 / 2
  pack_time_mean : ℚ := 3
  pack_time_std : ℚ := 4 / 5
  transport_time_mean : ℚ := 3 / 2
  transport_time_std : ℚ := 3 / 10
  order_arrival_rate : ℚ := 5
  items_per_order_mean : ℚ := 3
  items_per_order_std : ℚ := 3 / 2
  erp_sync_interval : ℚ := 60
  event_buffer_size : Nat := 1000
  sync_threshold : ℚ := 1 / 20
  calibration_window : Nat := 100
  deriving DecidableEq, Repr

/-- Python truthiness of an optional float, as used by
`if order.pick_end_time and order.pick_start_time:` — `None` and `0.0`
are both falsy. -/
def qTruthy : Option ℚ → Bool
  | none => false
  | some q => q ≠ 0

/-- `DigitalTwinMetrics.__init__` state. -/
structure DigitalTwinMetrics where
  orders_completed : Nat
  total_items_picked : Int
  total_picking_time : ℚ
  total_packing_time : ℚ
  total_order_time : ℚ
  order_times : List ℚ
  pick_times : List ℚ
  pack_times : List ℚ
  items_per_order : List Int
  deriving DecidableEq, Repr

/-- Fresh `DigitalTwinMetrics()`. -/
def initMetrics : DigitalTwinMetrics :=
  { orders_completed := 0
    total_items_picked := 0
    total_picking_time := 0
    total_packing_time := 0
    total_order_time := 0
    order_times := []
    pick_times := []
    pack_times := []
    items_per_order := [] }

/-- `DigitalTwinMetrics.record_order_completion`. -/
def record_order_completion (m : DigitalTwinMetrics) (o : Order) (total_time : ℚ) :
    DigitalTwinMetrics :=
  let m1 :=
    { m with
      orders_completed := m.orders_completed + 1
      total_items_picked := m.total_items_picked + o.total_items
      total_order_time := m.total_order_time + total_time
      order_times := m.order_times ++ [total_time]
      items_per_order := m.items_per_order ++ [o.total_items] }
  let m2 :=
    if qTruthy o.pick_end_time ∧ qTruthy o.pick_start_time then
      let pt := o.pick_end_time.getD 0 - o.pick_start_time.getD 0
      { m1 with total_picking_time := m1.total_picking_time + pt
                pick_times := m1.pick_times ++ [pt] }
    else m1
  if qTruthy o.pack_end_time ∧ qTruthy o.pack_start_time then
    let pt := o.pack_end_time.getD 0 - o.pack_start_time.getD 0
    { m2 with total_packing_time := m2.total_packing_time + pt
              pack_times := m2.pack_times ++ [pt] }
  else m2

/-- Insert into a sorted list of rationals (ascending). -/
def insertSorted (x : ℚ) : List ℚ → List ℚ
  | [] => [x]
  | y :: ys => if x ≤ y then x :: y :: ys else y :: insertSorted x ys

/-- Ascending sort, used by the median computation. -/
def sortQ (l : List ℚ) : List ℚ := l.foldr insertSorted []

/-- `min(list)` over a nonempty list (0 on the empty list, never used there). -/
def minQ (l : List ℚ) : ℚ := l.foldl min (l.headD 0)

/-- `max(list)` over a nonempty list (0 on the empty list, never used there). -/
def maxQ (l : List ℚ) : ℚ := l.foldl max (l.headD 0)

/-- `statistics.median`: middle element of the sorted list, or the mean of
the two middle elements for an even length. -/
def medianQ (l : List ℚ) : ℚ :=
  let s := sortQ l
  let n := s.length
  if n % 2 = 1 then s.getD (n / 2) 0
  else (s.getD (n / 2 - 1) 0 + s.getD (n / 2) 0) / 2

/-- Sample variance, `Σ (x - mean)² / (n - 1)`.  The source stores the
sample standard deviation `statistics.stdev`, i.e. the square root of this
value; the square is kept so the summary stays inside the rationals (the
square root is injective on the nonnegatives, so equality of summaries is
unaffected). -/
def sampleVar (l : List ℚ) : ℚ :=
  let n : ℚ := l.length
  let mean := l.sum / n
  (l.map (fun x => (x - mean) ^ 2)).sum / (n - 1)

/-- `avg_order_time` entry of `DigitalTwinMetrics.get_summary`:
`total_order_time / max(1, orders_completed)`. -/
def avgOrderTime (m : DigitalTwinMetrics) : ℚ :=
  m.total_order_time / ((max 1 m.orders_completed : Nat) : ℚ)

/-- The summary dictionary built by `DigitalTwinMetrics.get_summary`.
Entries only present under a guard become `Option` fields. -/
structure MetricsSummary where
  orders_completed : Nat
  total_items_picked : Int
  avg_order_time : ℚ
  avg_picking_time : ℚ
  avg_packing_time : ℚ
  avg_items_per_order : ℚ
  order_time_var : Option ℚ
  order_time_min : Option ℚ
  order_time_max : Option ℚ
  order_time_median : Option ℚ
  throughput_orders_per_hour : Option ℚ
  throughput_items_per_hour : Option ℚ
  deriving DecidableEq, Repr

/-- `DigitalTwinMetrics.get_summary`.  Python float division raises
`ZeroDivisionError` on a zero denominator, so the function is fallible:
the throughput entry divides `60.0` by `avg_order_time`, guarded only by
`orders_completed > 0 and self.order_times`. -/
def get_summary (m : DigitalTwinMetrics) : Except String MetricsSummary :=
  let denom : ℚ := ((max 1 m.orders_completed : Nat) : ℚ)
  let avg_items : ℚ := (m.total_items_picked : ℚ) / denom
  let base : MetricsSummary :=
    { orders_completed := m.orders_completed
      total_items_picked := m.total_items_picked
      avg_order_time := avgOrderTime m
      avg_picking_time := m.total_picking_time / denom
      avg_packing_time := m.total_packing_time / denom
      avg_items_per_order := avg_items
      order_time_var :=
        if m.order_times ≠ [] then
          some (if 1 < m.order_times.length then sampleVar m.order_times else 0)
        else none
      order_time_min := if m.order_times ≠ [] then some (minQ m.order_times) else none
      order_time_max := if m.order_times ≠ [] then some (maxQ m.order_times) else none
      order_time_median := if m.order_times ≠ [] then some (medianQ m.order_times) else none
      throughput_orders_per_hour := none
      throughput_items_per_hour := none }
  if 0 < m.orders_completed ∧ m.order_times ≠ [] then
    if avgOrderTime m = 0 then Except.error "ZeroDivisionError"
    else
      Except.ok
        { base with
          throughput_orders_per_hour := some (60 / avgOrderTime m)
          throughput_items_per_hour := some (60 / avgOrderTime m * avg_items) }
  else Except.ok base

/-- Dictionary lookup `inv[sku]` on an inventory modelled as a list of
items keyed by `sku` (first match wins, as dict keys are unique). -/
def findItem (inv : List InventoryItem) (sku : String) : Option InventoryItem :=
  inv.find? (fun it => it.sku = sku)

/-- `sku in self.inventory`. -/
def containsSku (inv : List InventoryItem) (sku : String) : Bool :=
  inv.any (fun it => it.sku = sku)

/-- `self.inventory[sku].quantity += delta` (no floor check, faithful to
the source: the quantity may go negative). -/
def updateQty (inv : List InventoryItem) (sku : String) (delta : Int) :
    List InventoryItem :=
  inv.map (fun it => if it.sku = sku then { it with quantity := it.quantity + delta } else it)

/-- The two accumulators of `WarehouseDigitalTwin.calculate_sync_drift`:
for every twin SKU also present externally, `total_diff += abs(erp - dt)`
and `total_items += max(erp_qty, dt_qty, 1)`. -/
def driftStep (erpInv : List InventoryItem) (acc : Int × Int) (it : InventoryItem) :
    Int × Int :=
  match findItem erpInv it.sku with
  | some erpIt =>
      (acc.1 + |erpIt.quantity - it.quantity|,
       acc.2 + max (max erpIt.quantity it.quantity) 1)
  | none => acc

/-- The loop of `calculate_sync_drift` over the twin's inventory. -/
def driftTotals (dtInv erpInv : List InventoryItem) : Int × Int :=
  dtInv.foldl (driftStep erpInv) (0, 0)

/-- `WarehouseDigitalTwin.calculate_sync_drift`: `1.0` when the adapter is
not connected, otherwise `total_diff / total_items` (or `0.0` when
`total_items` is zero).  The CALIBRATION_TRIGGER side effect on a large
drift touches only the event buffer, not the returned value, and is
modelled separately by `syncDriftEvents`. -/
def calculate_sync_drift (connected : Bool) (dtInv erpInv : List InventoryItem) : ℚ :=
  match connected with
  | false => 1
  | true =>
    let t := driftTotals dtInv erpInv
    if 0 < t.2 then (t.1 : ℚ) / (t.2 : ℚ) else 0

/-- The event-buffer effect of `calculate_sync_drift`: a
CALIBRATION_TRIGGER event is recorded when the drift exceeds the
configured threshold. -/
def syncDriftEvents (connected : Bool) (dtInv erpInv : List InventoryItem)
    (threshold : ℚ) (cap : Nat) (now : ℚ) (buf : List WarehouseEvent) :
    List WarehouseEvent :=
  if connected then
    let drift := calculate_sync_drift connected dtInv erpInv
    if threshold < drift then
      recordEvent cap now buf .CALIBRATION_TRIGGER [("drift", .q drift), ("threshold", .q threshold)]
    else buf
  else buf

/-- Per-line body of the picking loop in `WarehouseDigitalTwin.order_process`
(src/core.py lines 507-535), restricted to its state effect: the line's
picked quantity is set to the ordered quantity unconditionally; the
inventory decrement and the INVENTORY_UPDATED event happen only when the
SKU is present in the inventory. -/
def pickLine (cap : Nat) (now : ℚ) (inv : List InventoryItem)
    (buf : List WarehouseEvent) (line : OrderLine) :
    OrderLine × List InventoryItem × List WarehouseEvent :=
  let line' := { line with picked_quantity := line.quantity }
  if containsSku inv line.sku then
    (line',
     updateQty inv line.sku (-line.quantity),
     recordEvent cap now buf .INVENTORY_UPDATED
       [("sku", .s line.sku), ("change", .i (-line.quantity)), ("sim_time", .q now)])
  else (line', inv, buf)

/-- The picking loop over all order lines, threading inventory and event
buffer through `pickLine`. -/
def pickAllLines (cap : Nat) (now : ℚ) (inv : List InventoryItem)
    (buf : List WarehouseEvent) :
    List OrderLine → List OrderLine × List InventoryItem × List WarehouseEvent
  | [] => ([], inv, buf)
  | l :: ls =>
    let r := pickLine cap now inv buf l
    let rs := pickAllLines cap now r.2.1 r.2.2 ls
    (r.1 :: rs.1, rs.2.1, rs.2.2)

/-- State effect of one complete run of `WarehouseDigitalTwin.order_process`
on the order, the inventory, the event buffer, the metrics, and the
completed-orders list.  The virtual times at which the phases end are
passed in (they come from sampled delays, whose values do not affect
which state fields are written). -/
def order_process (cap : Nat) (o : Order) (inv : List InventoryItem)
    (buf : List WarehouseEvent) (m : DigitalTwinMetrics) (completed : List Order)
    (t0 tPickEnd tPackStart tPackEnd tDone : ℚ) :
    Order × List InventoryItem × List WarehouseEvent × DigitalTwinMetrics × List Order :=
  let o1 := { o with status := .PICKING, pick_start_time := some t0 }
  let buf1 := recordEvent cap t0 buf .ORDER_STATUS_CHANGED
    [("order_id", .s o.order_id), ("status", .s "picking"), ("sim_time", .q t0)]
  let buf2 := recordEvent cap t0 buf1 .WORKER_ASSIGNED
    [("order_id", .s o.order_id), ("sim_time", .q t0)]
  let pr := pickAllLines cap t0 inv buf2 o1.lines
  let o2 := { o1 with lines := pr.1, status := .PICKED, pick_end_time := some tPickEnd }
  let o3 := { o2 with status := .PACKING, pack_start_time := some tPackStart }
  let o4 := { o3 with status := .PACKED, pack_end_time := some tPackEnd }
  let o5 := { o4 with status := .SHIPPING }
  let o6 := { o5 with status := .COMPLETED }
  let total_time := tDone - t0
  let m' := record_order_completion m o6 total_time
  let buf3 := recordEvent cap tDone pr.2.2 .ORDER_STATUS_CHANGED
    [("order_id", .s o.order_id), ("status", .s "completed"),
     ("total_time", .q total_time), ("sim_time", .q tDone)]
  (o6, pr.2.1, buf3, m', completed ++ [o6])

/-- `event.data.get(key)` restricted to string payload values, with `none`
both when the key is missing and when the value is not a string (the
source only ever compares these values to strings or uses them as dict
keys). -/
def dataGetStr (data : List (String × PayloadVal)) (k : String) : Option String :=
  match data.find? (fun p => p.1 = k) with
  | some (_, .s v) => some v
  | _ => none

/-- Python `if order_id:` truthiness for an optional string. -/
def strTruthy : Option String → Bool
  | none => false
  | some v => v ≠ ""

/-- Overwriting update of a string-keyed association list, modelling
`d[key] = value` on a Python dict. -/
def setAssoc : List (String × ℚ) → String → ℚ → List (String × ℚ)
  | [], k, v => [(k, v)]
  | p :: m, k, v => if p.1 = k then (k, v) :: m else p :: setAssoc m k v

/-- `d.get(key)` / `key in d` on a string-keyed association list. -/
def getAssoc (m : List (String × ℚ)) (k : String) : Option ℚ :=
  (m.find? (fun p => p.1 = k)).map (fun p => p.2)

/-- The scan state of `WarehouseDigitalTwin.calibrate_from_erp_logs`:
the three sample lists and the three per-order-id timestamp dicts. -/
structure CalibState where
  pick_times : List ℚ
  pack_times : List ℚ
  order_times : List ℚ
  order_starts : List (String × ℚ)
  order_picks : List (String × ℚ)
  order_packs : List (String × ℚ)
  deriving DecidableEq, Repr

/-- Initial calibration scan state. -/
def initCalibState : CalibState := ⟨[], [], [], [], [], []⟩

/-- One iteration of the event loop in `calibrate_from_erp_logs`
(src/core.py lines 738-763).  Timestamps are in seconds; a recorded
sample is `(timestamp difference).total_seconds() / 60` minutes. -/
def calibStep (st : CalibState) (e : WarehouseEvent) : CalibState :=
  match e.event_type with
  | .ORDER_CREATED =>
    let oid := dataGetStr e.data "order_id"
    if strTruthy oid then
      { st with order_starts := setAssoc st.order_starts (oid.getD "") e.timestamp }
    else st
  | .ORDER_STATUS_CHANGED =>
    let oid := dataGetStr e.data "order_id"
    let ns := dataGetStr e.data "new_status"
    if strTruthy oid ∧ ns = some "picked" then
      match getAssoc st.order_starts (oid.getD "") with
      | some t0 =>
        { st with
          pick_times := st.pick_times ++ [(e.timestamp - t0) / 60]
          order_picks := setAssoc st.order_picks (oid.getD "") e.timestamp }
      | none => st
    else if strTruthy oid ∧ ns = some "packed" then
      match getAssoc st.order_picks (oid.getD "") with
      | some t0 =>
        { st with
          pack_times := st.pack_times ++ [(e.timestamp - t0) / 60]
          order_packs := setAssoc st.order_packs (oid.getD "") e.timestamp }
      | none => st
    else if strTruthy oid ∧ ns = some "completed" then
      match getAssoc st.order_starts (oid.getD "") with
      | some t0 =>
        { st with order_times := st.order_times ++ [(e.timestamp - t0) / 60] }
      | none => st
    else st
  | _ => st

/-- The full event scan of `calibrate_from_erp_logs`. -/
def calibScan (events : List WarehouseEvent) : CalibState :=
  events.foldl calibStep initCalibState

/-- Whether an event is an ORDER_CREATED event carrying order id `oid`. -/
def isCreatedFor (e : WarehouseEvent) (oid : String) : Bool :=
  e.event_type = .ORDER_CREATED ∧ dataGetStr e.data "order_id" = some oid

/-- Whether an event is a picked ORDER_STATUS_CHANGED event for `oid`. -/
def isPickedFor (e : WarehouseEvent) (oid : String) : Bool :=
  e.event_type = .ORDER_STATUS_CHANGED ∧
    dataGetStr e.data "order_id" = some oid ∧
    dataGetStr e.data "new_status" = some "picked"

/-- Timestamp of the last ORDER_CREATED event for `oid` in the already
scanned part of the trace. -/
def lastCreatedTs (seen : List WarehouseEvent) (oid : String) : Option ℚ :=
  seen.foldl (fun acc e => if isCreatedFor e oid then some e.timestamp else acc) none

/-- Specification-side description of the pick samples: scanning the
remaining events with prefix `seen` already processed, each picked
status-change event for a (truthy) order id that has a created event
earlier in the scan contributes one sample, the elapsed minutes from the
most recent such created timestamp, positive or not. -/
def pickSamplesSpec (seen : List WarehouseEvent) :
    List WarehouseEvent → List ℚ
  | [] => []
  | e :: rest =>
    let tail := pickSamplesSpec (seen ++ [e]) rest
    match dataGetStr e.data "order_id" with
    | some oid =>
      if oid ≠ "" ∧ isPickedFor e oid then
        match lastCreatedTs seen oid with
        | some t0 => ((e.timestamp - t0) / 60) :: tail
        | none => tail
      else tail
    | none => tail

/-- Modelled from the spec: the capacity-bounded Resource Pool of §4.2
(`simpy.Resource`, constructed by `_initialize_resources` but implemented
by the third-party SimPy library, absent from this repository's sources):
fixed capacity, in-use count, and a FIFO queue of waiting process
handles. -/
structure ResourcePool where
  capacity : Nat
  in_use : Nat
  waitq : List Nat
  deriving DecidableEq, Repr

/-- A resource-pool request or release, in virtual-time order. -/
inductive PoolOp where
  | acquire (pid : Nat)
  | release
  deriving DecidableEq, Repr

/-- Modelled from the spec: `acquire()` grants immediately when
`in_use < capacity`, otherwise enqueues the requesting process at the
tail of the wait queue.  Returns the pool and whether the grant was
immediate. -/
def poolAcquire (p : ResourcePool) (pid : Nat) : ResourcePool × Bool :=
  if p.in_use < p.capacity then ({ p with in_use := p.in_use + 1 }, true)
  else ({ p with waitq := p.waitq ++ [pid] }, false)

/-- Modelled from the spec: `release()` decrements the in-use count and,
if the wait queue is nonempty, immediately grants the freed slot to the
head waiter.  Returns the pool and the resumed waiter, if any. -/
def poolRelease (p : ResourcePool) : ResourcePool × Option Nat :=
  let p1 := { p with in_use := p.in_use - 1 }
  match p1.waitq with
  | [] => (p1, none)
  | h :: t => ({ p1 with in_use := p1.in_use + 1, waitq := t }, some h)

/-- A pool together with the history of suspensions (processes that had
to wait, in request order) and of resumptions (waiters granted a freed
slot, in resumption order). -/
structure PoolTrace where
  pool : ResourcePool
  enqueued : List Nat
  resumed : List Nat
  deriving DecidableEq, Repr

/-- Apply one operation to a pool trace. -/
def poolStep (tr : PoolTrace) (op : PoolOp) : PoolTrace :=
  match op with
  | .acquire pid =>
    let r := poolAcquire tr.pool pid
    { tr with
      pool := r.1
      enqueued := if r.2 then tr.enqueued else tr.enqueued ++ [pid] }
  | .release =>
    let r := poolRelease tr.pool
    { tr with pool := r.1, resumed := tr.resumed ++ r.2.toList }

/-- A fresh pool of the configured capacity, no tokens held. -/
def initPool (cap : Nat) : PoolTrace := ⟨⟨cap, 0, []⟩, [], []⟩

/-- Run a sequence of pool operations from a fresh pool. -/
def runPool (cap : Nat) (ops : List PoolOp) : PoolTrace :=
  ops.foldl poolStep (initPool cap)

/-- An operation sequence is well formed when every release happens while
at least one token is held (SimPy releases only previously granted
requests). -/
def validOpsFrom (tr : PoolTrace) : List PoolOp → Bool
  | [] => true
  | op :: ops =>
    (op ≠ PoolOp.release ∨ 0 < tr.pool.in_use) ∧ validOpsFrom (poolStep tr op) ops

/-- Modelled from the spec: a pending resumption of the Scheduler of
§4.1 — wake-up virtual time, scheduling insertion sequence number (the
determinism tie-break), and the process handle (the SimPy event queue,
keyed by `(time, priority, event id)`, is third-party code absent from
this repository's sources). -/
structure PendEntry where
  time : ℚ
  seq : Nat
  proc : Nat
  deriving DecidableEq, Repr

/-- The twin-side state visible to logical processes. -/
structure UserState where
  rng : Nat
  inventory : List InventoryItem
  metrics : DigitalTwinMetrics
  event_buffer : List WarehouseEvent
  completed_orders : List Order
  active_orders : List Order
  deriving DecidableEq, Repr

/-- Modelled from the spec: full scheduler state — the virtual clock, the
pending-resumption queue, the next insertion sequence number, and the
process-visible twin state. -/
structure SchedState where
  now : ℚ
  pending : List PendEntry
  nextSeq : Nat
  user : UserState
  deriving DecidableEq, Repr

/-- Resumption order: earlier wake time first, ties broken by insertion
sequence. -/
def lexLe (a b : PendEntry) : Prop :=
  a.time < b.time ∨ (a.time = b.time ∧ a.seq ≤ b.seq)

instance (a b : PendEntry) : Decidable (lexLe a b) := by
  unfold lexLe
  infer_instance

/-- Attach fresh insertion sequence numbers `n, n+1, …` to newly scheduled
resumptions (delay, process handle), waking at `t + delay`. -/
def attachSeqs (t : ℚ) (n : Nat) : List (ℚ × Nat) → List PendEntry
  | [] => []
  | d :: rest => ⟨t + d.1, n, d.2⟩ :: attachSeqs t (n + 1) rest

/-- Modelled from the spec: resuming one pending entry.  The clock jumps
to the entry's wake time, the process body `perform` (the resumed
continuation) updates the twin state and schedules further resumptions,
which receive fresh insertion sequence numbers. -/
def applyEntry (perform : Nat → ℚ → UserState → UserState × List (ℚ × Nat))
    (s : SchedState) (e : PendEntry) : SchedState :=
  let r := perform e.proc e.time s.user
  { now := e.time
    pending := s.pending.erase e ++ attachSeqs e.time s.nextSeq r.2
    nextSeq := s.nextSeq + r.2.length
    user := r.1 }

/-- Modelled from the spec: `run_simulation` / `advance_to(duration)` as a
relation.  The run finishes when no pending resumption wakes before the
requested duration; otherwise some pending entry that is minimal for
`lexLe` and wakes before the duration is resumed.  Nondeterminism, if
any, could only come from the choice of the minimal entry. -/
inductive RunRel (perform : Nat → ℚ → UserState → UserState × List (ℚ × Nat)) (d : ℚ) :
    SchedState → SchedState → Prop
  | done (s : SchedState) (h : ∀ e ∈ s.pending, d ≤ e.time) : RunRel perform d s s
  | step (s s' : SchedState) (e : PendEntry) (he : e ∈ s.pending)
      (hmin : ∀ e' ∈ s.pending, lexLe e e') (ht : e.time < d)
      (hrest : RunRel perform d (applyEntry perform s e) s') : RunRel perform d s s'

/-- Scheduler invariant: pending entries carry pairwise distinct insertion
sequence numbers, all below the fresh-sequence counter. -/
def SchedInv (s : SchedState) : Prop :=
  s.pending.Pairwise (fun a b => a.seq ≠ b.seq) ∧ ∀ e ∈ s.pending, e.seq < s.nextSeq

/-- `WarehouseDigitalTwin.__init__` state, from the configuration: the
random generator is seeded with `config.random_seed`, the virtual clock
starts at zero, and one initial process (the order generator started by
`run_simulation`) is scheduled at time zero. -/
def initState (cfg : SimulationConfig) : SchedState :=
  { now := 0
    pending := [⟨0, 0, 0⟩]
    nextSeq := 1
    user :=
      { rng := cfg.random_seed
        inventory := []
        metrics := initMetrics
        event_buffer := []
        completed_orders := []
        active_orders := [] } }

/-- The twin inventory of the C3 counterexample: the unguarded inventory
decrements of `order_process` can drive a quantity negative. -/
def driftDemoTwin : List InventoryItem := [{ sku := "SKU-0001", quantity := -5 }]

/-- The external inventory of the C3 counterexample. -/
def driftDemoErp : List InventoryItem := [{ sku := "SKU-0001", quantity := 0 }]

/-- A concrete order for the metrics counterexample and witnesses (the
`sample_order` of the repository's test suite). -/
def demoOrder : Order :=
  { order_id := "TEST-001", customer_id := "CUST-001",
    lines := [{ sku := "SKU-0001", quantity := 2 }, { sku := "SKU-0002", quantity := 3 }],
    priority := 3 }

/-- Invariant of a pool trace: the capacity is fixed, the in-use count
never exceeds it, and the suspension history equals the resumption
history followed by the current wait queue (so resumptions happen in
exactly the order the suspensions were requested). -/
def PoolInv (cap : Nat) (tr : PoolTrace) : Prop :=
  tr.pool.capacity = cap ∧ tr.pool.in_use ≤ cap ∧
    tr.enqueued = tr.resumed ++ tr.pool.waitq

/-- The pick samples a single `calibStep` appends: nonempty exactly for a
picked status-change event whose truthy order id has a recorded start. -/
def headSamples (st : CalibState) (e : WarehouseEvent) : List ℚ :=
  match e.event_type with
  | .ORDER_STATUS_CHANGED =>
    let oid := dataGetStr e.data "order_id"
    let ns := dataGetStr e.data "new_status"
    if strTruthy oid ∧ ns = some "picked" then
      match getAssoc st.order_starts (oid.getD "") with
      | some t0 => [(e.timestamp - t0) / 60]
      | none => []
    else []
  | _ => []

/-- The pick samples the specification-side scan attributes to one event,
given the already-processed prefix `seen`. -/
def specHeadSamples (seen : List WarehouseEvent) (e : WarehouseEvent) : List ℚ :=
  match dataGetStr e.data "order_id" with
  | some oid =>
    if oid ≠ "" ∧ isPickedFor e oid then
      match lastCreatedTs seen oid with
      | some t0 => [(e.timestamp - t0) / 60]
      | none => []
    else []
  | none => []

/-- The three calibration events of the C8 counterexample: one created
event and two picked events for the same order, the first picked event
carrying a timestamp before the created one. -/
def calDemoEvents : List WarehouseEvent :=
  [ { event_id := 0, event_type := .ORDER_CREATED, timestamp := 6000,
      data := [("order_id", .s "O1")], source := "erp" },
    { event_id := 1, event_type := .ORDER_STATUS_CHANGED, timestamp := 2400,
      data := [("order_id", .s "O1"), ("new_status", .s "picked")], source := "erp" },
    { event_id := 2, event_type := .ORDER_STATUS_CHANGED, timestamp := 12000,
      data := [("order_id", .s "O1"), ("new_status", .s "picked")], source := "erp" } ]

/-- A trivial process body used by the determinism witness: no state
change, no further scheduling. -/
def performNoop : Nat → ℚ → UserState → UserState × List (ℚ × Nat) :=
  fun _ _ u => (u, [])

/-! Helper lemmas. -/

lemma dequeAppend_length_le {cap : Nat} {buf : List WarehouseEvent}
    (e : WarehouseEvent) (h : buf.length ≤ cap) :
    (dequeAppend cap buf e).length ≤ cap := by
  simp only [dequeAppend]
  split
  · simp only [List.length_tail, List.length_append, List.length_singleton]
    omega
  · next hc =>
    simp only [not_lt] at hc
    exact hc

lemma recordEvents_length_le (cap : Nat) :
    ∀ (recs : List (EventType × List (String × PayloadVal))) (buf : List WarehouseEvent),
      buf.length ≤ cap →
      (recs.foldl (fun b p => recordEvent cap 0 b p.1 p.2) buf).length ≤ cap
  | [], _, h => h
  | r :: rs, buf, h => by
    simp only [List.foldl_cons]
    exact recordEvents_length_le cap rs _ (dequeAppend_length_le _ h)

lemma pickLine_fst (cap : Nat) (now : ℚ) (inv : List InventoryItem)
    (buf : List WarehouseEvent) (line : OrderLine) :
    (pickLine cap now inv buf line).1 = { line with picked_quantity := line.quantity } := by
  unfold pickLine
  split <;> rfl

lemma pickAllLines_fst (cap : Nat) (now : ℚ) :
    ∀ (ls : List OrderLine) (inv : List InventoryItem) (buf : List WarehouseEvent),
      (pickAllLines cap now inv buf ls).1 =
        ls.map (fun l => { l with picked_quantity := l.quantity })
  | [], _, _ => rfl
  | l :: ls, inv, buf => by
    simp only [pickAllLines, List.map_cons]
    exact congrArg₂ _ (pickLine_fst ..) (pickAllLines_fst cap now ls _ _)

/-! The claims. -/

/-- C5.  After any sequence of appends the event log's size never exceeds
the configured capacity, and an append to a full (nonempty-capacity) log
evicts exactly the head, the oldest entry. -/
theorem event_log_bounded_and_fifo (cap : Nat)
    (recs : List (EventType × List (String × PayloadVal))) :
    (recs.foldl (fun b p => recordEvent cap 0 b p.1 p.2) []).length ≤ cap ∧
    ∀ (buf : List WarehouseEvent) (e : WarehouseEvent),
      buf.length = cap → 0 < cap → dequeAppend cap buf e = buf.tail ++ [e] := by
  refine ⟨recordEvents_length_le cap recs [] (by simp), ?_⟩
  intro buf e hlen hpos
  cases buf with
  | nil => simp at hlen; omega
  | cons b bs =>
    simp only [dequeAppend]
    split
    · simp
    · next hc =>
      exfalso
      simp only [not_lt, List.length_append, List.length_singleton, List.length_cons] at hc
      simp only [List.length_cons] at hlen
      omega

/-- Witness for C5 at capacity 2: a fold of three appends stays within the
bound, and appending to a concrete full buffer drops its head. -/
theorem event_log_bounded_and_fifo_witness :
    ([(EventType.SIMULATION_TICK, ([] : List (String × PayloadVal))),
      (EventType.SYNC_REQUEST, []), (EventType.SIMULATION_TICK, [])].foldl
        (fun b p => recordEvent 2 0 b p.1 p.2) []).length ≤ 2 ∧
    dequeAppend 2
      [{ event_id := 0, event_type := .SIMULATION_TICK, timestamp := 0, data := [] },
       { event_id := 1, event_type := .SYNC_REQUEST, timestamp := 0, data := [] }]
      { event_id := 2, event_type := .SIMULATION_TICK, timestamp := 0, data := [] } =
      [{ event_id := 1, event_type := .SYNC_REQUEST, timestamp := 0, data := [] },
       { event_id := 2, event_type := .SIMULATION_TICK, timestamp := 0, data := [] }] := by
  refine ⟨(event_log_bounded_and_fifo 2 _).1, ?_⟩
  rw [(event_log_bounded_and_fifo 2 []).2 _ _ (by rfl) (by norm_num)]
  rfl

/-- C6 (code bug).  With capacity 2, four consecutive `_record_event`
calls assign the ids `0, 1, 2, 2`: the id is taken from the buffer's
current length, so it stops growing once the ring buffer is full, and the
third and fourth events receive the same identifier instead of strictly
increasing ones. -/
theorem record_event_ids_repeat_after_capacity :
    (recordEventsIds 2 4 []).2 = [0, 1, 2, 2] ∧
    ¬ (recordEventsIds 2 4 []).2.Pairwise (· < ·) := by
  constructor
  · rfl
  · rw [(rfl : (recordEventsIds 2 4 []).2 = [0, 1, 2, 2])]
    decide

/-- C9.  A line whose SKU is absent from the current inventory still gets
its picked quantity set to the ordered quantity, while the inventory is
left untouched and no INVENTORY_UPDATED event is recorded. -/
theorem pick_line_missing_sku (cap : Nat) (now : ℚ) (inv : List InventoryItem)
    (buf : List WarehouseEvent) (line : OrderLine)
    (h : containsSku inv line.sku = false) :
    pickLine cap now inv buf line =
      ({ line with picked_quantity := line.quantity }, inv, buf) := by
  unfold pickLine
  simp [h]

/-- Witness for C9: picking a line for an unknown SKU on a one-item
inventory changes nothing but the line's picked quantity. -/
theorem pick_line_missing_sku_witness :
    pickLine 10 0 [{ sku := "SKU-0001", quantity := 7 }] []
        { sku := "SKU-MISSING", quantity := 3 } =
      ({ sku := "SKU-MISSING", quantity := 3, picked_quantity := 3 },
       [{ sku := "SKU-0001", quantity := 7 }], []) :=
  pick_line_missing_sku 10 0 _ [] _ (by decide)

/-- C10.  The order that `order_process` moves to the completed set is
fully picked: every line's picked quantity equals its ordered quantity,
hence `picked_items = total_items` and `is_fully_picked` holds. -/
theorem completed_order_fully_picked (cap : Nat) (o : Order)
    (inv : List InventoryItem) (buf : List WarehouseEvent)
    (m : DigitalTwinMetrics) (completed : List Order) (t0 t1 t2 t3 t4 : ℚ) :
    (order_process cap o inv buf m completed t0 t1 t2 t3 t4).2.2.2.2 =
      completed ++ [(order_process cap o inv buf m completed t0 t1 t2 t3 t4).1] ∧
    (order_process cap o inv buf m completed t0 t1 t2 t3 t4).1.picked_items =
      (order_process cap o inv buf m completed t0 t1 t2 t3 t4).1.total_items ∧
    (order_process cap o inv buf m completed t0 t1 t2 t3 t4).1.is_fully_picked = true := by
  refine ⟨rfl, ?_, ?_⟩
  · show Order.picked_items _ = Order.total_items _
    unfold Order.picked_items Order.total_items
    simp only [order_process, pickAllLines_fst, List.map_map]
    rfl
  · show Order.is_fully_picked _ = true
    unfold Order.is_fully_picked
    simp only [order_process, pickAllLines_fst, List.all_map]
    exact List.all_eq_true.mpr (fun l _ => by simp)

lemma driftTotals_diff_zero (erpInv : List InventoryItem) :
    ∀ (dtInv : List InventoryItem) (acc : Int × Int),
      (∀ it ∈ dtInv, ∀ e, findItem erpInv it.sku = some e → e.quantity = it.quantity) →
      (dtInv.foldl (driftStep erpInv) acc).1 = acc.1
  | [], _, _ => rfl
  | it :: dtInv, acc, h => by
    simp only [List.foldl_cons]
    have tail :=
      driftTotals_diff_zero erpInv dtInv (driftStep erpInv acc it)
        (fun x hx => h x (List.mem_cons_of_mem _ hx))
    rw [tail]
    unfold driftStep
    cases hf : findItem erpInv it.sku with
    | none => rfl
    | some e =>
      have := h it (List.mem_cons_self it dtInv) e hf
      simp [this]

lemma driftTotals_diff_nonneg (erpInv : List InventoryItem) :
    ∀ (dtInv : List InventoryItem) (acc : Int × Int),
      0 ≤ acc.1 → 0 ≤ (dtInv.foldl (driftStep erpInv) acc).1
  | [], _, h => h
  | it :: dtInv, acc, h => by
    simp only [List.foldl_cons]
    refine driftTotals_diff_nonneg erpInv dtInv (driftStep erpInv acc it) ?_
    unfold driftStep
    cases hf : findItem erpInv it.sku with
    | none => exact h
    | some e => simpa using add_nonneg h (abs_nonneg _)

lemma abs_sub_le_max3 (a b : Int) (ha : 0 ≤ a) (hb : 0 ≤ b) :
    |a - b| ≤ max (max a b) 1 := by
  rcases le_total a b with h | h
  · rw [abs_of_nonpos (by omega)]
    have hm : b ≤ max (max a b) 1 := le_trans (le_max_right a b) (le_max_left _ 1)
    linarith
  · rw [abs_of_nonneg (by omega)]
    have hm : a ≤ max (max a b) 1 := le_trans (le_max_left a b) (le_max_left _ 1)
    linarith

lemma driftTotals_bounds (erpInv : List InventoryItem)
    (herp : ∀ it ∈ erpInv, 0 ≤ it.quantity) :
    ∀ (dtInv : List InventoryItem) (acc : Int × Int),
      (∀ it ∈ dtInv, 0 ≤ it.quantity) → 0 ≤ acc.1 → acc.1 ≤ acc.2 →
      0 ≤ (dtInv.foldl (driftStep erpInv) acc).1 ∧
        (dtInv.foldl (driftStep erpInv) acc).1 ≤ (dtInv.foldl (driftStep erpInv) acc).2
  | [], acc, _, h1, h2 => ⟨h1, h2⟩
  | it :: dtInv, acc, hdt, h1, h2 => by
    simp only [List.foldl_cons]
    refine driftTotals_bounds erpInv herp dtInv (driftStep erpInv acc it)
      (fun x hx => hdt x (List.mem_cons_of_mem _ hx)) ?_ ?_
    · unfold driftStep
      cases hf : findItem erpInv it.sku with
      | none => exact h1
      | some e => simpa using add_nonneg h1 (abs_nonneg _)
    · unfold driftStep
      cases hf : findItem erpInv it.sku with
      | none => exact h2
      | some e =>
        have he : 0 ≤ e.quantity :=
          herp e (List.mem_of_find?_eq_some hf)
        have hit : 0 ≤ it.quantity := hdt it (List.mem_cons_self it dtInv)
        have := abs_sub_le_max3 e.quantity it.quantity he hit
        simpa using add_le_add h2 this

/-- C7.  `calculate_sync_drift` returns exactly 1 when the adapter is not
connected — for arbitrary inventories, since the early return precedes
any inspection of them — and exactly 0 when connected with equal
quantities for every SKU shared by the twin and the external
inventory. -/
theorem sync_drift_disconnected_and_identical (dtInv erpInv : List InventoryItem) :
    calculate_sync_drift false dtInv erpInv = 1 ∧
    ((∀ it ∈ dtInv, ∀ e, findItem erpInv it.sku = some e → e.quantity = it.quantity) →
      calculate_sync_drift true dtInv erpInv = 0) := by
  refine ⟨rfl, fun h => ?_⟩
  have hz : (driftTotals dtInv erpInv).1 = 0 := by
    unfold driftTotals
    exact driftTotals_diff_zero erpInv dtInv (0, 0) h
  show (if 0 < (driftTotals dtInv erpInv).2 then
      ((driftTotals dtInv erpInv).1 : ℚ) / ((driftTotals dtInv erpInv).2 : ℚ)
    else 0) = 0
  rw [hz]
  split <;> simp

/-- Witness for C7 on a one-SKU inventory pair with equal quantities. -/
theorem sync_drift_disconnected_and_identical_witness :
    calculate_sync_drift false [{ sku := "SKU-0001", quantity := 42 }]
        [{ sku := "SKU-0001", quantity := 42 }, { sku := "SKU-0002", quantity := 7 }] = 1 ∧
    calculate_sync_drift true [{ sku := "SKU-0001", quantity := 42 }]
        [{ sku := "SKU-0001", quantity := 42 }, { sku := "SKU-0002", quantity := 7 }] = 0 :=
  ⟨(sync_drift_disconnected_and_identical _ _).1,
   (sync_drift_disconnected_and_identical _ _).2 (by decide)⟩

/-- C3 counterexample.  With a negative twin quantity (reachable, since
picking decrements without a floor check) the drift is 5, outside
`[0, 1]`: the difference is 5 while the normalization term is
`max(0, -5, 1) = 1`. -/
theorem sync_drift_exceeds_one_on_negative_qty :
    calculate_sync_drift true driftDemoTwin driftDemoErp = 5 ∧
    ¬ calculate_sync_drift true driftDemoTwin driftDemoErp ≤ 1 := by
  have ht : driftTotals driftDemoTwin driftDemoErp = (5, 1) := by rfl
  have h : calculate_sync_drift true driftDemoTwin driftDemoErp = 5 := by
    show (if 0 < (driftTotals driftDemoTwin driftDemoErp).2 then
        ((driftTotals driftDemoTwin driftDemoErp).1 : ℚ) /
          ((driftTotals driftDemoTwin driftDemoErp).2 : ℚ)
      else 0) = 5
    rw [ht]
    norm_num
  rw [h]
  constructor
  · rfl
  · norm_num

/-- C3 as amended.  The drift is nonnegative unconditionally — for every
connection state and every pair of inventories, negative quantities
included — and it is at most 1 whenever every quantity of the twin
inventory and of the external inventory is nonnegative. -/
theorem sync_drift_bounds_of_nonneg (connected : Bool)
    (dtInv erpInv : List InventoryItem) :
    0 ≤ calculate_sync_drift connected dtInv erpInv ∧
    ((∀ it ∈ dtInv, 0 ≤ it.quantity) → (∀ it ∈ erpInv, 0 ≤ it.quantity) →
      calculate_sync_drift connected dtInv erpInv ≤ 1) := by
  cases connected with
  | false => exact ⟨by norm_num [calculate_sync_drift], fun _ _ => le_of_eq rfl⟩
  | true =>
    have hd : 0 ≤ (driftTotals dtInv erpInv).1 := by
      unfold driftTotals
      exact driftTotals_diff_nonneg erpInv dtInv (0, 0) le_rfl
    constructor
    · by_cases hpos : 0 < (driftTotals dtInv erpInv).2
      · have heq : calculate_sync_drift true dtInv erpInv =
            ((driftTotals dtInv erpInv).1 : ℚ) / ((driftTotals dtInv erpInv).2 : ℚ) := by
          show (if 0 < (driftTotals dtInv erpInv).2 then
              ((driftTotals dtInv erpInv).1 : ℚ) / ((driftTotals dtInv erpInv).2 : ℚ)
            else 0) = _
          rw [if_pos hpos]
        rw [heq]
        exact div_nonneg (by exact_mod_cast hd) (by exact_mod_cast le_of_lt hpos)
      · have heq : calculate_sync_drift true dtInv erpInv = 0 := by
          show (if 0 < (driftTotals dtInv erpInv).2 then
              ((driftTotals dtInv erpInv).1 : ℚ) / ((driftTotals dtInv erpInv).2 : ℚ)
            else 0) = 0
          rw [if_neg hpos]
        rw [heq]
    · intro hdt herp
      have hb : 0 ≤ (driftTotals dtInv erpInv).1 ∧
          (driftTotals dtInv erpInv).1 ≤ (driftTotals dtInv erpInv).2 := by
        unfold driftTotals
        exact driftTotals_bounds erpInv herp dtInv (0, 0) hdt le_rfl le_rfl
      by_cases hpos : 0 < (driftTotals dtInv erpInv).2
      · have heq : calculate_sync_drift true dtInv erpInv =
            ((driftTotals dtInv erpInv).1 : ℚ) / ((driftTotals dtInv erpInv).2 : ℚ) := by
          show (if 0 < (driftTotals dtInv erpInv).2 then
              ((driftTotals dtInv erpInv).1 : ℚ) / ((driftTotals dtInv erpInv).2 : ℚ)
            else 0) = _
          rw [if_pos hpos]
        rw [heq, div_le_one (by exact_mod_cast hpos)]
        exact_mod_cast hb.2
      · have heq : calculate_sync_drift true dtInv erpInv = 0 := by
          show (if 0 < (driftTotals dtInv erpInv).2 then
              ((driftTotals dtInv erpInv).1 : ℚ) / ((driftTotals dtInv erpInv).2 : ℚ)
            else 0) = 0
          rw [if_neg hpos]
        rw [heq]
        norm_num

/-- Witness for C3 as amended: the lower bound on the negative-quantity
counterexample inventories, and both bounds on small nonnegative
inventories. -/
theorem sync_drift_bounds_of_nonneg_witness :
    0 ≤ calculate_sync_drift true driftDemoTwin driftDemoErp ∧
    0 ≤ calculate_sync_drift true [{ sku := "SKU-0001", quantity := 3 }]
          [{ sku := "SKU-0001", quantity := 4 }] ∧
    calculate_sync_drift true [{ sku := "SKU-0001", quantity := 3 }]
          [{ sku := "SKU-0001", quantity := 4 }] ≤ 1 :=
  ⟨(sync_drift_bounds_of_nonneg true driftDemoTwin driftDemoErp).1,
   (sync_drift_bounds_of_nonneg true _ _).1,
   (sync_drift_bounds_of_nonneg true _ _).2 (by decide) (by decide)⟩

lemma record_orders_completed (m : DigitalTwinMetrics) (o : Order) (t : ℚ) :
    (record_order_completion m o t).orders_completed = m.orders_completed + 1 := by
  unfold record_order_completion
  split_ifs <;> rfl

lemma record_total_order_time (m : DigitalTwinMetrics) (o : Order) (t : ℚ) :
    (record_order_completion m o t).total_order_time = m.total_order_time + t := by
  unfold record_order_completion
  split_ifs <;> rfl

lemma record_order_times (m : DigitalTwinMetrics) (o : Order) (t : ℚ) :
    (record_order_completion m o t).order_times = m.order_times ++ [t] := by
  unfold record_order_completion
  split_ifs <;> rfl

lemma foldl_record_orders_completed :
    ∀ (recs : List (Order × ℚ)) (m : DigitalTwinMetrics),
      (recs.foldl (fun m p => record_order_completion m p.1 p.2) m).orders_completed =
        m.orders_completed + recs.length
  | [], m => by simp
  | r :: rs, m => by
    simp only [List.foldl_cons, List.length_cons]
    rw [foldl_record_orders_completed rs, record_orders_completed]
    omega

lemma foldl_record_total_order_time :
    ∀ (recs : List (Order × ℚ)) (m : DigitalTwinMetrics),
      (recs.foldl (fun m p => record_order_completion m p.1 p.2) m).total_order_time =
        m.total_order_time + (recs.map (fun p => p.2)).sum
  | [], m => by simp
  | r :: rs, m => by
    simp only [List.foldl_cons, List.map_cons, List.sum_cons]
    rw [foldl_record_total_order_time rs, record_total_order_time]
    ring

lemma foldl_record_order_times :
    ∀ (recs : List (Order × ℚ)) (m : DigitalTwinMetrics),
      (recs.foldl (fun m p => record_order_completion m p.1 p.2) m).order_times =
        m.order_times ++ recs.map (fun p => p.2)
  | [], m => by simp
  | r :: rs, m => by
    simp only [List.foldl_cons, List.map_cons]
    rw [foldl_record_order_times rs, record_order_times]
    simp

/-- C4 counterexample.  Recording one completed order with a zero total
time satisfies the code's guard (`orders_completed > 0 and order_times`)
while the average order time is zero, so `get_summary` divides 60 by zero
and fails: the claimed guard on a strictly positive average does not
exist in the code. -/
theorem summary_division_by_zero_example :
    get_summary (record_order_completion initMetrics demoOrder 0) =
      Except.error "ZeroDivisionError" := by
  have hc : (record_order_completion initMetrics demoOrder 0).orders_completed = 1 := by
    rw [record_orders_completed]
    rfl
  have hot : (record_order_completion initMetrics demoOrder 0).order_times = [0] := by
    rw [record_order_times]
    rfl
  have havg : avgOrderTime (record_order_completion initMetrics demoOrder 0) = 0 := by
    unfold avgOrderTime
    rw [record_total_order_time, hc]
    norm_num [initMetrics]
  have hguard : 0 < (record_order_completion initMetrics demoOrder 0).orders_completed ∧
      (record_order_completion initMetrics demoOrder 0).order_times ≠ [] := by
    constructor
    · rw [hc]
      norm_num
    · rw [hot]
      simp
  simp only [get_summary]
  rw [if_pos hguard, if_pos havg]

/-- C4 as amended.  The throughput entry equals `60 / avg_order_time` and
is present exactly when at least one order has completed and at least one
order time is recorded; the division is not guarded against a zero
average, but whenever the average order time is strictly positive the
summary succeeds — in particular for any metrics built from a nonempty
sequence of completions with strictly positive total times. -/
theorem summary_throughput_characterization :
    (∀ m : DigitalTwinMetrics, 0 < m.orders_completed → m.order_times ≠ [] →
        0 < avgOrderTime m →
        ∃ s, get_summary m = Except.ok s ∧
          s.throughput_orders_per_hour = some (60 / avgOrderTime m)) ∧
    (∀ (m : DigitalTwinMetrics) (s : MetricsSummary),
        get_summary m = Except.ok s → s.throughput_orders_per_hour ≠ none →
        0 < m.orders_completed ∧ m.order_times ≠ []) ∧
    (∀ recs : List (Order × ℚ), recs ≠ [] → (∀ p ∈ recs, 0 < p.2) →
        ∃ s, get_summary
            (recs.foldl (fun m p => record_order_completion m p.1 p.2) initMetrics) =
            Except.ok s ∧ s.throughput_orders_per_hour ≠ none) := by
  have h1 : ∀ m : DigitalTwinMetrics, 0 < m.orders_completed → m.order_times ≠ [] →
      0 < avgOrderTime m →
      ∃ s, get_summary m = Except.ok s ∧
        s.throughput_orders_per_hour = some (60 / avgOrderTime m) := by
    intro m hc ht havg
    simp only [get_summary]
    rw [if_pos ⟨hc, ht⟩, if_neg (ne_of_gt havg)]
    exact ⟨_, rfl, rfl⟩
  have h2 : ∀ (m : DigitalTwinMetrics) (s : MetricsSummary),
      get_summary m = Except.ok s → s.throughput_orders_per_hour ≠ none →
      0 < m.orders_completed ∧ m.order_times ≠ [] := by
    intro m s hok hthr
    by_cases hg : 0 < m.orders_completed ∧ m.order_times ≠ []
    · exact hg
    · exfalso
      simp only [get_summary] at hok
      rw [if_neg hg] at hok
      injection hok with h
      subst h
      exact hthr rfl
  refine ⟨h1, h2, ?_⟩
  intro recs hne hpos
  have hc := foldl_record_orders_completed recs initMetrics
  have ht := foldl_record_order_times recs initMetrics
  have htot := foldl_record_total_order_time recs initMetrics
  have hc' : 0 <
      (recs.foldl (fun m p => record_order_completion m p.1 p.2) initMetrics).orders_completed := by
    rw [hc]
    have := List.length_pos.mpr hne
    simp [initMetrics]
    omega
  have ht' : (recs.foldl (fun m p => record_order_completion m p.1 p.2)
      initMetrics).order_times ≠ [] := by
    rw [ht]
    simp [initMetrics, hne]
  have hsum : 0 < (recs.map (fun p => p.2)).sum := by
    apply List.sum_pos
    · intro a ha
      rcases List.mem_map.mp ha with ⟨p, hp, rfl⟩
      exact hpos p hp
    · simpa using hne
  have havg : 0 < avgOrderTime
      (recs.foldl (fun m p => record_order_completion m p.1 p.2) initMetrics) := by
    unfold avgOrderTime
    apply div_pos
    · rw [htot]
      simpa [initMetrics] using hsum
    · have : 0 < max 1 (recs.foldl (fun m p => record_order_completion m p.1 p.2)
          initMetrics).orders_completed := by omega
      exact_mod_cast this
  rcases h1 _ hc' ht' havg with ⟨s, hok, hthr⟩
  exact ⟨s, hok, by rw [hthr]; simp⟩

/-- Witness for C4 as amended: one completed order with total time 25
yields a summary whose throughput entry is present. -/
theorem summary_throughput_characterization_witness :
    ∃ s, get_summary ([((demoOrder : Order), (25 : ℚ))].foldl
        (fun m p => record_order_completion m p.1 p.2) initMetrics) =
      Except.ok s ∧ s.throughput_orders_per_hour ≠ none :=
  summary_throughput_characterization.2.2 [(demoOrder, 25)] (by simp)
    (by
      intro p hp
      rw [List.mem_singleton] at hp
      rw [hp]
      norm_num)

lemma poolStep_inv {cap : Nat} {tr : PoolTrace} {op : PoolOp}
    (hv : op ≠ PoolOp.release ∨ 0 < tr.pool.in_use) (h : PoolInv cap tr) :
    PoolInv cap (poolStep tr op) := by
  obtain ⟨hcap, huse, hfifo⟩ := h
  cases op with
  | acquire pid =>
    unfold poolStep poolAcquire
    by_cases hlt : tr.pool.in_use < tr.pool.capacity
    · simp only [if_pos hlt]
      exact ⟨hcap, show tr.pool.in_use + 1 ≤ cap by omega, hfifo⟩
    · simp only [if_neg hlt]
      refine ⟨hcap, huse, ?_⟩
      simp [hfifo, List.append_assoc]
  | release =>
    have hpos : 0 < tr.pool.in_use := by
      rcases hv with hv | hv
      · exact absurd rfl hv
      · exact hv
    unfold poolStep poolRelease
    cases hq : tr.pool.waitq with
    | nil =>
      simp only [hq]
      refine ⟨hcap, show tr.pool.in_use - 1 ≤ cap by omega, ?_⟩
      simp [hfifo, hq]
    | cons w ws =>
      simp only [hq]
      refine ⟨hcap, show tr.pool.in_use - 1 + 1 ≤ cap by omega, ?_⟩
      simp only [Option.toList_some]
      rw [hfifo, hq]
      simp

lemma runPool_inv (cap : Nat) :
    ∀ (ops : List PoolOp) (tr : PoolTrace), PoolInv cap tr →
      validOpsFrom tr ops = true → PoolInv cap (ops.foldl poolStep tr)
  | [], _, h, _ => h
  | op :: ops, tr, h, hv => by
    simp only [validOpsFrom, Bool.and_eq_true, decide_eq_true_eq] at hv
    simp only [List.foldl_cons]
    exact runPool_inv cap ops (poolStep tr op) (poolStep_inv hv.1 h) hv.2

/-- C2.  Along any well-formed sequence of acquire and release operations
on a fresh pool, the in-use count never exceeds the configured capacity,
and the processes resumed from the wait queue are exactly a prefix of the
processes that were suspended, in the same order (strict FIFO). -/
theorem pool_capacity_and_fifo (cap : Nat) (ops : List PoolOp)
    (h : validOpsFrom (initPool cap) ops = true) :
    (runPool cap ops).pool.in_use ≤ cap ∧
    (runPool cap ops).enqueued =
      (runPool cap ops).resumed ++ (runPool cap ops).pool.waitq := by
  have hinv : PoolInv cap (runPool cap ops) := by
    unfold runPool
    exact runPool_inv cap ops (initPool cap) ⟨rfl, Nat.zero_le _, rfl⟩ h
  exact ⟨hinv.2.1, hinv.2.2⟩

/-- Witness for C2: capacity 1, two competing acquires and two releases;
process 2 waits and is resumed first and alone. -/
theorem pool_capacity_and_fifo_witness :
    (runPool 1 [.acquire 1, .acquire 2, .release, .release]).pool.in_use ≤ 1 ∧
    (runPool 1 [.acquire 1, .acquire 2, .release, .release]).enqueued =
      (runPool 1 [.acquire 1, .acquire 2, .release, .release]).resumed ++
        (runPool 1 [.acquire 1, .acquire 2, .release, .release]).pool.waitq :=
  pool_capacity_and_fifo 1 [.acquire 1, .acquire 2, .release, .release] (by decide)

lemma getAssoc_cons (p : String × ℚ) (m : List (String × ℚ)) (k' : String) :
    getAssoc (p :: m) k' = if p.1 = k' then some p.2 else getAssoc m k' := by
  unfold getAssoc
  by_cases h : p.1 = k'
  · rw [List.find?_cons_of_pos _ (by simpa using h), if_pos h]
    rfl
  · rw [List.find?_cons_of_neg _ (by simpa using h), if_neg h]

lemma getAssoc_setAssoc :
    ∀ (m : List (String × ℚ)) (k : String) (v : ℚ) (k' : String),
      getAssoc (setAssoc m k v) k' = if k' = k then some v else getAssoc m k'
  | [], k, v, k' => by
    simp only [setAssoc]
    rw [getAssoc_cons]
    by_cases h : k' = k
    · rw [if_pos h.symm, if_pos h]
    · rw [if_neg (fun hh : k = k' => h hh.symm), if_neg h]
  | p :: m, k, v, k' => by
    simp only [setAssoc]
    by_cases hpk : p.1 = k
    · rw [if_pos hpk, getAssoc_cons]
      by_cases h : k' = k
      · rw [if_pos h.symm, if_pos h]
      · have hp' : ¬ p.1 = k' := fun hh => h (hpk.symm.trans hh).symm
        rw [if_neg (fun hh : k = k' => h hh.symm), if_neg h, getAssoc_cons, if_neg hp']
    · rw [if_neg hpk, getAssoc_cons, getAssoc_setAssoc m k v k']
      by_cases hp' : p.1 = k'
      · have hkk : ¬ k' = k := fun hh => hpk (hp'.trans hh)
        rw [if_pos hp', if_neg hkk, getAssoc_cons, if_pos hp']
      · rw [if_neg hp']
        by_cases hkk : k' = k
        · rw [if_pos hkk, if_pos hkk]
        · rw [if_neg hkk, if_neg hkk, getAssoc_cons, if_neg hp']

lemma lastCreatedTs_append (seen : List WarehouseEvent) (e : WarehouseEvent) (oid : String) :
    lastCreatedTs (seen ++ [e]) oid =
      if isCreatedFor e oid then some e.timestamp else lastCreatedTs seen oid := by
  unfold lastCreatedTs
  rw [List.foldl_append]
  rfl

lemma calibStep_starts (st : CalibState) (e : WarehouseEvent) :
    (calibStep st e).order_starts =
      if e.event_type = EventType.ORDER_CREATED ∧
          strTruthy (dataGetStr e.data "order_id") then
        setAssoc st.order_starts ((dataGetStr e.data "order_id").getD "") e.timestamp
      else st.order_starts := by
  obtain ⟨eid, etype, ts, data, src, proc⟩ := e
  cases etype
  case ORDER_CREATED =>
    simp only [calibStep]
    split_ifs with h1 h2 h3 <;> simp_all
  case ORDER_STATUS_CHANGED =>
    simp only [calibStep]
    have hne : ¬ (EventType.ORDER_STATUS_CHANGED = EventType.ORDER_CREATED ∧
        strTruthy (dataGetStr data "order_id")) := by
      rintro ⟨h, -⟩
      exact absurd h (by decide)
    rw [if_neg hne]
    split_ifs with h1 h2 h3
    · cases hga : getAssoc st.order_starts ((dataGetStr data "order_id").getD "") <;> rfl
    · cases hga : getAssoc st.order_picks ((dataGetStr data "order_id").getD "") <;> rfl
    · cases hga : getAssoc st.order_starts ((dataGetStr data "order_id").getD "") <;> rfl
    · rfl
  all_goals
    simp only [calibStep]
    rw [if_neg (by rintro ⟨h, -⟩; exact absurd h (by decide))]

lemma calibStep_pick_times (st : CalibState) (e : WarehouseEvent) :
    (calibStep st e).pick_times = st.pick_times ++ headSamples st e := by
  obtain ⟨eid, etype, ts, data, src, proc⟩ := e
  cases etype
  case ORDER_CREATED =>
    simp only [calibStep, headSamples]
    split_ifs <;> simp
  case ORDER_STATUS_CHANGED =>
    simp only [calibStep, headSamples]
    split_ifs with h1 h2 h3
    · cases hga : getAssoc st.order_starts ((dataGetStr data "order_id").getD "") <;>
        simp [hga]
    · cases hga : getAssoc st.order_picks ((dataGetStr data "order_id").getD "") <;>
        simp [hga]
    · cases hga : getAssoc st.order_starts ((dataGetStr data "order_id").getD "") <;>
        simp [hga]
    · simp
  all_goals
    simp [calibStep, headSamples]

lemma headSamples_eq_spec (st : CalibState) (seen : List WarehouseEvent)
    (e : WarehouseEvent)
    (hinv : ∀ oid : String, oid ≠ "" →
      getAssoc st.order_starts oid = lastCreatedTs seen oid) :
    headSamples st e = specHeadSamples seen e := by
  obtain ⟨eid, etype, ts, data, src, proc⟩ := e
  cases etype
  case ORDER_STATUS_CHANGED =>
    rcases hd : dataGetStr data "order_id" with _ | oid
    · simp [headSamples, specHeadSamples, hd, strTruthy]
    · by_cases hoe : oid = ""
      · subst hoe
        simp [headSamples, specHeadSamples, hd, strTruthy]
      · by_cases hp : dataGetStr data "new_status" = some "picked"
        · have : headSamples st ⟨eid, .ORDER_STATUS_CHANGED, ts, data, src, proc⟩ =
              match getAssoc st.order_starts oid with
              | some t0 => [(ts - t0) / 60]
              | none => [] := by
            simp [headSamples, hd, hp, strTruthy, hoe]
          rw [this]
          have : specHeadSamples seen ⟨eid, .ORDER_STATUS_CHANGED, ts, data, src, proc⟩ =
              match lastCreatedTs seen oid with
              | some t0 => [(ts - t0) / 60]
              | none => [] := by
            simp [specHeadSamples, hd, hp, hoe, isPickedFor]
          rw [this, hinv oid hoe]
        · simp [headSamples, specHeadSamples, hd, hp, strTruthy, hoe, isPickedFor]
  all_goals
    rcases hd : dataGetStr data "order_id" with _ | oid
    · simp [headSamples, specHeadSamples, hd]
    · simp [headSamples, specHeadSamples, hd, isPickedFor]

lemma calibStep_starts_inv (st : CalibState) (seen : List WarehouseEvent)
    (e : WarehouseEvent)
    (hinv : ∀ oid : String, oid ≠ "" →
      getAssoc st.order_starts oid = lastCreatedTs seen oid) :
    ∀ oid : String, oid ≠ "" →
      getAssoc (calibStep st e).order_starts oid = lastCreatedTs (seen ++ [e]) oid := by
  intro oid hoid
  rw [calibStep_starts, lastCreatedTs_append]
  by_cases hc : e.event_type = EventType.ORDER_CREATED ∧
      strTruthy (dataGetStr e.data "order_id")
  · rw [if_pos hc, getAssoc_setAssoc]
    have hT := hc.2
    rcases hd : dataGetStr e.data "order_id" with _ | s
    · rw [hd] at hT
      simp [strTruthy] at hT
    · have hs : s ≠ "" := by
        rw [hd] at hT
        simpa [strTruthy] using hT
      by_cases heq : oid = s
      · subst heq
        simp [isCreatedFor, hc.1, hd]
      · have hicf : isCreatedFor e oid = false := by
          simp only [isCreatedFor, hd]
          simp [hc.1]
          exact fun hh => heq hh.symm
        simp [hd, heq, hicf, hinv oid hoid]
  · rw [if_neg hc]
    have hicf : isCreatedFor e oid = false := by
      by_contra hne
      have h' : isCreatedFor e oid = true := by
        cases h : isCreatedFor e oid
        · exact absurd h hne
        · rfl
      simp only [isCreatedFor, Bool.and_eq_true, decide_eq_true_eq] at h'
      exact hc ⟨h'.1, by rw [h'.2]; simpa [strTruthy] using hoid⟩
    simp [hicf, hinv oid hoid]

lemma pickSamplesSpec_cons (seen : List WarehouseEvent) (e : WarehouseEvent)
    (rest : List WarehouseEvent) :
    pickSamplesSpec seen (e :: rest) =
      specHeadSamples seen e ++ pickSamplesSpec (seen ++ [e]) rest := by
  simp only [pickSamplesSpec, specHeadSamples]
  rcases hd : dataGetStr e.data "order_id" with _ | oid
  · simp
  · by_cases hcond : oid ≠ "" ∧ isPickedFor e oid = true
    · cases hl : lastCreatedTs seen oid <;> simp [hcond, hl]
    · simp [hcond]

lemma calibScan_pick_aux :
    ∀ (rest : List WarehouseEvent) (st : CalibState) (seen : List WarehouseEvent),
      (∀ oid : String, oid ≠ "" →
        getAssoc st.order_starts oid = lastCreatedTs seen oid) →
      (rest.foldl calibStep st).pick_times = st.pick_times ++ pickSamplesSpec seen rest
  | [], st, seen, _ => by simp [pickSamplesSpec]
  | e :: rest, st, seen, hinv => by
    simp only [List.foldl_cons]
    rw [calibScan_pick_aux rest (calibStep st e) (seen ++ [e])
        (calibStep_starts_inv st seen e hinv),
      calibStep_pick_times, headSamples_eq_spec st seen e hinv,
      pickSamplesSpec_cons, List.append_assoc]

/-- C8 counterexample.  On a trace with one created event and two later
picked events for the same order `"O1"`, `calibrate_from_erp_logs`
records TWO pick samples for that order, not at most one, and the first
sample is negative (−60 minutes) because the picked timestamp precedes
the created timestamp — no timestamp-order check exists in the code. -/
theorem calibration_duplicate_pick_samples :
    (calibScan calDemoEvents).pick_times = [-60, 100] ∧
    ¬ (calibScan calDemoEvents).pick_times.length ≤ 1 := by
  have h0 : (calibScan calDemoEvents).pick_times =
      [((2400 : ℚ) - 6000) / 60, ((12000 : ℚ) - 6000) / 60] := rfl
  have h : (calibScan calDemoEvents).pick_times = [-60, 100] := by
    rw [h0]
    norm_num
  refine ⟨h, ?_⟩
  rw [h]
  norm_num

/-- C8 as amended.  The pick samples recorded by the calibration scan are
characterized as follows: every picked status-change event whose truthy
order id has a created event earlier in the scan contributes exactly one
sample, the elapsed minutes from the most recent such created timestamp
to the picked event (whether or not positive); picked events with no
prior created event contribute none. -/
theorem calibration_pick_samples_characterization (events : List WarehouseEvent) :
    (calibScan events).pick_times = pickSamplesSpec [] events := by
  unfold calibScan
  rw [calibScan_pick_aux events initCalibState [] (fun oid _ => rfl)]
  rfl

lemma attachSeqs_seq_bounds (t : ℚ) :
    ∀ (l : List (ℚ × Nat)) (n : Nat) (x : PendEntry),
      x ∈ attachSeqs t n l → n ≤ x.seq ∧ x.seq < n + l.length
  | [], n, x, hx => by simp [attachSeqs] at hx
  | d :: l, n, x, hx => by
    simp only [attachSeqs, List.mem_cons] at hx
    rcases hx with rfl | hx
    · refine ⟨le_rfl, ?_⟩
      simp only [List.length_cons]
      omega
    · obtain ⟨h1, h2⟩ := attachSeqs_seq_bounds t l (n + 1) x hx
      refine ⟨by omega, ?_⟩
      simp only [List.length_cons]
      omega

lemma attachSeqs_pairwise (t : ℚ) :
    ∀ (l : List (ℚ × Nat)) (n : Nat),
      (attachSeqs t n l).Pairwise (fun a b => a.seq ≠ b.seq)
  | [], _ => List.Pairwise.nil
  | d :: l, n => by
    simp only [attachSeqs]
    refine List.Pairwise.cons ?_ (attachSeqs_pairwise t l (n + 1))
    intro b hb
    have hbd := (attachSeqs_seq_bounds t l (n + 1) b hb).1
    show n ≠ b.seq
    omega

lemma pairwise_seq_eq {l : List PendEntry}
    (h : l.Pairwise (fun a b => a.seq ≠ b.seq)) :
    ∀ {a b : PendEntry}, a ∈ l → b ∈ l → a.seq = b.seq → a = b := by
  induction l with
  | nil =>
    intro a b ha
    simp at ha
  | cons x xs ih =>
    intro a b ha hb hseq
    rcases List.pairwise_cons.mp h with ⟨hx, hxs⟩
    rcases List.mem_cons.mp ha with ha1 | ha1
    · rcases List.mem_cons.mp hb with hb1 | hb1
      · rw [ha1, hb1]
      · have hxb : x.seq = b.seq := by
          rw [← ha1]
          exact hseq
        exact absurd hxb (hx b hb1)
    · rcases List.mem_cons.mp hb with hb1 | hb1
      · have hxa : x.seq = a.seq := by
          rw [← hb1]
          exact hseq.symm
        exact absurd hxa (hx a ha1)
      · exact ih hxs ha1 hb1 hseq

lemma schedInv_applyEntry (perform : Nat → ℚ → UserState → UserState × List (ℚ × Nat))
    {s : SchedState} {e : PendEntry} (hs : SchedInv s) :
    SchedInv (applyEntry perform s e) := by
  obtain ⟨hpw, hbound⟩ := hs
  constructor
  · show (s.pending.erase e ++
      attachSeqs e.time s.nextSeq (perform e.proc e.time s.user).2).Pairwise _
    apply List.pairwise_append.mpr
    refine ⟨hpw.sublist (List.erase_sublist e s.pending),
      attachSeqs_pairwise _ _ _, ?_⟩
    intro a ha b hb
    have h1 : a.seq < s.nextSeq := hbound a (List.mem_of_mem_erase ha)
    have h2 := (attachSeqs_seq_bounds _ _ _ b hb).1
    omega
  · intro x hx
    rcases List.mem_append.mp hx with hx | hx
    · have := hbound x (List.mem_of_mem_erase hx)
      show x.seq < s.nextSeq + (perform e.proc e.time s.user).2.length
      omega
    · have := (attachSeqs_seq_bounds _ _ _ x hx).2
      show x.seq < s.nextSeq + (perform e.proc e.time s.user).2.length
      omega

lemma lexLe_antisymm_seq {a b : PendEntry} (h1 : lexLe a b) (h2 : lexLe b a) :
    a.time = b.time ∧ a.seq = b.seq := by
  rcases h1 with h1 | ⟨ht1, hs1⟩
  · rcases h2 with h2 | ⟨ht2, hs2⟩
    · exact absurd h2 (not_lt.mpr (le_of_lt h1))
    · rw [ht2] at h1
      exact absurd h1 (lt_irrefl _)
  · rcases h2 with h2 | ⟨ht2, hs2⟩
    · rw [ht1] at h2
      exact absurd h2 (lt_irrefl _)
    · exact ⟨ht1, le_antisymm hs1 hs2⟩

lemma min_pending_unique {s : SchedState} (hs : SchedInv s) {e₁ e₂ : PendEntry}
    (h₁ : e₁ ∈ s.pending) (hm₁ : ∀ e ∈ s.pending, lexLe e₁ e)
    (h₂ : e₂ ∈ s.pending) (hm₂ : ∀ e ∈ s.pending, lexLe e₂ e) : e₁ = e₂ := by
  have hab := lexLe_antisymm_seq (hm₁ e₂ h₂) (hm₂ e₁ h₁)
  exact pairwise_seq_eq hs.1 h₁ h₂ hab.2

lemma runRel_deterministic (perform : Nat → ℚ → UserState → UserState × List (ℚ × Nat))
    (d : ℚ) :
    ∀ {s s₁ : SchedState}, RunRel perform d s s₁ →
      ∀ {s₂ : SchedState}, SchedInv s → RunRel perform d s s₂ → s₁ = s₂ := by
  intro s s₁ h1
  induction h1 with
  | done s h =>
    intro s₂ hinv h2
    cases h2 with
    | done _ _ => rfl
    | step _ _ e he hmin ht hrest => exact absurd ht (not_lt.mpr (h e he))
  | step s s' e he hmin ht hrest ih =>
    intro s₂ hinv h2
    cases h2 with
    | done _ h => exact absurd ht (not_lt.mpr (h e he))
    | step _ _ e' he' hmin' ht' hrest' =>
      have heq : e = e' := min_pending_unique hinv he hmin he' hmin'
      subst heq
      exact ih (schedInv_applyEntry perform hinv) hrest'

lemma schedInv_initState (cfg : SimulationConfig) : SchedInv (initState cfg) := by
  constructor
  · simp [initState]
  · intro e he
    simp only [initState, List.mem_singleton] at he
    subst he
    show (0 : Nat) < 1
    omega

/-- C1.  The spec-modelled scheduler is deterministic: any two complete
runs from the same configuration (hence the same seeded initial state)
for the same duration end in the same state, so in particular they report
the same completed-order count and the same metrics summary.  The proof
rests on the `(wake-time, insertion-sequence)` tie-break: pending entries
always carry pairwise distinct sequence numbers, so the minimal pending
entry is unique at every step. -/
theorem run_deterministic_counts_and_summary
    (perform : Nat → ℚ → UserState → UserState × List (ℚ × Nat))
    (cfg : SimulationConfig) (d : ℚ) (s₁ s₂ : SchedState)
    (h₁ : RunRel perform d (initState cfg) s₁)
    (h₂ : RunRel perform d (initState cfg) s₂) :
    s₁.user.completed_orders.length = s₂.user.completed_orders.length ∧
    get_summary s₁.user.metrics = get_summary s₂.user.metrics := by
  have h : s₁ = s₂ := runRel_deterministic perform d h₁ (schedInv_initState cfg) h₂
  subst h
  exact ⟨rfl, rfl⟩

/-- Witness for C1: a concrete one-step run (the initial process resumes
at time 0 and schedules nothing) under the default configuration. -/
theorem run_deterministic_counts_and_summary_witness :
    (applyEntry performNoop (initState {}) ⟨0, 0, 0⟩).user.completed_orders.length =
      (applyEntry performNoop (initState {}) ⟨0, 0, 0⟩).user.completed_orders.length ∧
    get_summary (applyEntry performNoop (initState {}) ⟨0, 0, 0⟩).user.metrics =
      get_summary (applyEntry performNoop (initState {}) ⟨0, 0, 0⟩).user.metrics := by
  have hrun : RunRel performNoop 1 (initState {})
      (applyEntry performNoop (initState {}) ⟨0, 0, 0⟩) := by
    refine RunRel.step _ _ ⟨0, 0, 0⟩ (by simp [initState]) ?_
      (show (0 : ℚ) < 1 by norm_num) ?_
    · intro e' he'
      simp only [initState, List.mem_singleton] at he'
      subst he'
      exact Or.inr ⟨rfl, le_rfl⟩
    · refine RunRel.done _ ?_
      intro e' he'
      exact absurd he' (by simp [applyEntry, performNoop, initState, attachSeqs])
  exact run_deterministic_counts_and_summary performNoop {} 1 _ _ hrun hrun

end SmeDtErp
